import Mathlib

/-
Verification development for the steam-achievement-recommender pipeline.

The Python sources are shallowly embedded as Lean definitions:
Python dicts become insertion-ordered association lists, pandas series
become lists of (index, value) pairs, numpy arrays become lists, and
model scores (floats whose only relevant structure here is their order)
become integers.  Fallible calls are embedded with Except / Option, and
the observable effects of a call (artifacts written, messages printed)
are returned explicitly.
-/

/-! ## Python dict / pandas primitives -/

/-- Accumulator form of first-seen deduplication: `seen` holds the values
already emitted.  Models the hash-table pass performed by
`pandas.Series.unique`, which returns distinct values in order of first
appearance. -/
def pandasUniqueAux {α : Type} [DecidableEq α] : List α → List α → List α
  | _, [] => []
  | seen, x :: xs =>
      if x ∈ seen then pandasUniqueAux seen xs
      else x :: pandasUniqueAux (x :: seen) xs

/-- Models `pandas.Series.unique`: distinct values in first-seen order. -/
def pandasUnique {α : Type} [DecidableEq α] (l : List α) : List α :=
  pandasUniqueAux [] l

/-- Models `enumerate` starting from a given counter, pairing each element
with its (offset) position. -/
def assignDenseIds {α : Type} : Nat → List α → List (α × Nat)
  | _, [] => []
  | n, x :: xs => (x, n) :: assignDenseIds (n + 1) xs

/-- Embeds the dict comprehensions of train_model.py lines 36-37,
`{raw_id: idx + 1 for idx, raw_id in enumerate(df[col].unique())}`:
the identifier encoder assigning dense ids in first-seen order,
starting at 1.  The Python dict is kept as an insertion-ordered
association list. -/
def buildIdDict {α : Type} [DecidableEq α] (rawIds : List α) : List (α × Nat) :=
  assignDenseIds 1 (pandasUnique rawIds)

/-! ## Sequence builder (convert_achievements_to_interactions and
spotlight to_sequence) -/

/-- Raw per-player achievement record as returned by
get_player_achievements in get_achievements.py: the apiname and the
unlocktime fields of one achieved entry. -/
structure RawAchievement where
  apiname : String
  unlocktime : Nat
deriving DecidableEq

/-- Embeds convert_achievements_to_interactions of predict_scores.py
lines 67-103: rows (steam_id = 1, apiname, unlocktime) are built, the
apiname column is mapped through the achievement dict (a key absent from
the dict yields NaN), rows with NaN are dropped by dropna, and rows whose
timestamp is 0 are dropped by the filter.  The surviving rows are the
(dense item id, timestamp) pairs, in input order. -/
def convert_achievements_to_interactions
    (achievements_list : List RawAchievement)
    (achievement_name_dict : List (String × Nat)) : List (Nat × Nat) :=
  (achievements_list.filterMap (fun a =>
      (List.lookup a.apiname achievement_name_dict).map
        (fun i => (i, a.unlocktime)))).filter (fun r => r.2 ≠ 0)

/-- Models the spotlight Interactions.to_sequence call made by
interactions_to_sequences in data_utils.py, specialised to a table whose
rows all carry one user id, with min_sequence_length and step_size at
their None defaults (step_size = max_sequence_length).  to_sequence
stably sorts the rows by user then timestamp (np.lexsort with a stable
mergesort per key), and its sliding window with step equal to the window
size emits, as the first sequence of the user, the most recent
max_sequence_length item ids left-padded with 0.  This definition is that
first sequence (sequences[0] in predict_scores.py line 151).  The stable
sort is embedded as insertion sort, which agrees with every stable sort
under the same total preorder. -/
def toSequenceSingleUser (rows : List (Nat × Nat))
    (max_sequence_length : Nat) : List Nat :=
  let sorted := (List.insertionSort (fun a b => a.2 ≤ b.2) rows).map Prod.fst
  let body := sorted.drop (sorted.length - max_sequence_length)
  List.replicate (max_sequence_length - body.length) 0 ++ body

/-! ## Model store (load_latest_model) -/

/-- Datetime fields extracted by datetime.strptime with format
%Y-%m-%d_%H-%M-%S from the part of the artifact name after the first
underscore (predict_scores.py line 27). -/
structure Timestamp where
  year : Nat
  month : Nat
  day : Nat
  hour : Nat
  minute : Nat
  second : Nat
deriving DecidableEq

/-- Field tuple of a parsed datetime, most significant first.  Python
datetime values compare by exactly this tuple. -/
def Timestamp.fields (t : Timestamp) : List Nat :=
  [t.year, t.month, t.day, t.hour, t.minute, t.second]

/-- Lexicographic strict comparison of field lists: the order Python uses
to compare datetime values. -/
def listLtb : List Nat → List Nat → Bool
  | [], [] => false
  | [], _ :: _ => true
  | _ :: _, [] => false
  | a :: as, b :: bs =>
      if a < b then true else if b < a then false else listLtb as bs

/-- Chronological (datetime) strict comparison of two parsed timestamps. -/
def Timestamp.ltb (a b : Timestamp) : Bool := listLtb a.fields b.fields

/-- Python builtin max over a running candidate: the running value is
replaced only when the next element compares strictly greater, so among
equal maxima the earliest wins.  Models
max(model_datetimes) at predict_scores.py line 29. -/
def pyMaxBy {α : Type} (lt : α → α → Bool) : α → List α → α
  | best, [] => best
  | best, x :: xs => pyMaxBy lt (if lt best x then x else best) xs

/-- Artifact file in the models directory, with the name already split
into the appid part and the parsed timestamp suffix. -/
structure ArtifactName where
  appid : String
  created : Timestamp
deriving DecidableEq

inductive LoadError where
  /-- FileNotFoundError raised at predict_scores.py line 24: no models
  found for the appid, train a model first. -/
  | modelNotFound
deriving DecidableEq

/-- Embeds load_latest_model of predict_scores.py lines 11-36: filter the
model directory to names starting with the appid and an underscore, fail
with FileNotFoundError when none is present, otherwise parse the datetime
suffix of every candidate with strptime, take the Python max of the
parsed datetimes, locate the first artifact carrying that datetime with
list.index, and load it. -/
def load_latest_model (appid : String) (model_dir : List ArtifactName) :
    Except LoadError ArtifactName :=
  match model_dir.filter (fun f => decide (f.appid = appid)) with
  | [] => .error .modelNotFound
  | m :: ms =>
      let best := pyMaxBy (fun a b => Timestamp.ltb a.created b.created) m ms
      .ok (((m :: ms).find? (fun f => decide (f.created = best.created))).getD best)

/-! ## Training pipeline (fetch_data_and_train_model) -/

/-- One row of the achievement table produced by
load_interactions_from_sqlite: the steamid, apiname and unlocked
(timestamp, 0 when never unlocked) columns used by training. -/
structure InteractionRow where
  steamid : String
  apiname : String
  unlocked : Nat
deriving DecidableEq

/-- One achievement entry of the game schema returned by
get_achievement_descriptions in data_utils.py. -/
structure CatalogEntry where
  apiname : String
  displayName : String
  description : String
  hidden : Bool
deriving DecidableEq

/-- Training-time capacity (train_model.py line 53):
len(achievement_name_dict.keys()). -/
def trainSequenceCapacity (rows : List InteractionRow) : Nat :=
  (buildIdDict (rows.map (fun r => r.apiname))).length

/-- Reverse achievement map attached to the fitted model
(train_model.py line 73): {v: k for k, v in achievement_name_dict.items()},
mapping each dense id back to the apiname; insertion order follows the
dict, so the entries are in ascending dense id order. -/
def modelReverseDict (rows : List InteractionRow) : List (Nat × String) :=
  (buildIdDict (rows.map (fun r => r.apiname))).map (fun p => (p.2, p.1))

/-- Scoring-time achievement dict (predict_scores.py line 134):
{v: k for k, v in model.achievement_name_dict.items()}, inverting the
reverse map attached to the model back to apiname -> dense id.  The keys
of the attached reverse map are the distinct dense ids and its values the
distinct apinames, so the inversion is the entrywise swap. -/
def predictAchievementNameDict (m : List (Nat × String)) : List (String × Nat) :=
  m.map (fun p => (p.2, p.1))

/-- Scoring-time capacity (predict_scores.py line 136):
len(achievement_name_dict.keys()). -/
def predictMaxSequenceLength (m : List (Nat × String)) : Nat :=
  (predictAchievementNameDict m).length

/-- Training-time row filtering (train_model.py lines 39-44): both id
columns are mapped through their dicts, rows with a missing mapped value
are dropped by dropna, and rows with unlocked = 0 are dropped by the
filter.  The surviving rows are (dense user id, dense item id, timestamp). -/
def trainFilteredRows (rows : List InteractionRow) : List (Nat × Nat × Nat) :=
  let steam_id_dict := buildIdDict (rows.map (fun r => r.steamid))
  let achievement_name_dict := buildIdDict (rows.map (fun r => r.apiname))
  (rows.filterMap (fun r =>
    match List.lookup r.steamid steam_id_dict,
          List.lookup r.apiname achievement_name_dict with
    | some u, some i => some (u, i, r.unlocked)
    | _, _ => none)).filter (fun r => decide (r.2.2 ≠ 0))

/-- ValueErrors that can be raised inside the try block of
fetch_data_and_train_model. -/
inductive TrainError where
  /-- train_model.py line 27: no achievements found for this appid. -/
  | noAchievements
  /-- train_model.py line 29: unable to produce a model for a game with a
  single achievement. -/
  | singleAchievement
  /-- the ValueError numpy raises inside the spotlight Interactions
  constructor (train_model.py line 47) when the filtered interaction
  table is empty: a reduction over a zero-size id array. -/
  | emptyTrainingData
deriving DecidableEq

/-- Model artifact written by torch.save (train_model.py lines 76-83):
named {appid}_{creation timestamp}, carrying the fitted model with the
attached reverse achievement map.  The fitted network parameters are
irrelevant to every claim and are not carried. -/
structure SavedModel where
  appid : String
  created : Timestamp
  achievement_name_dict : List (Nat × String)
deriving DecidableEq

/-- Observable outcome of one fetch_data_and_train_model call: which
artifacts the call wrote to the model directory, and the error printed by
the blanket except handler if one was caught.  The Python function always
returns None. -/
structure TrainCallOutcome where
  saved : List SavedModel
  printedError : Option TrainError
deriving DecidableEq

/-- Body of the try block of fetch_data_and_train_model (train_model.py
lines 24-85), with raising embedded as Except.error: an empty catalog and
a single-achievement catalog raise before any training work; an empty
filtered interaction table makes the spotlight Interactions constructor
raise; otherwise fitting succeeds (the fit call itself is outside every
claim) and the artifact is saved with the attached reverse map. -/
def trainPipelineBody (appid : String) (descriptions : List CatalogEntry)
    (rows : List InteractionRow) (now : Timestamp) :
    Except TrainError SavedModel :=
  if descriptions.isEmpty then .error .noAchievements
  else if descriptions.length = 1 then .error .singleAchievement
  else if (trainFilteredRows rows).isEmpty then .error .emptyTrainingData
  else .ok { appid := appid, created := now,
             achievement_name_dict := modelReverseDict rows }

/-- Embeds fetch_data_and_train_model of train_model.py lines 12-88: the
whole body sits in try/except Exception, whose handler prints the error
and falls off the end, so the caller always receives a normal (None)
return; when the body raised, nothing was saved. -/
def fetch_data_and_train_model (appid : String)
    (descriptions : List CatalogEntry) (rows : List InteractionRow)
    (now : Timestamp) : Except TrainError TrainCallOutcome :=
  match trainPipelineBody appid descriptions rows now with
  | .error e => .ok { saved := [], printedError := some e }
  | .ok m => .ok { saved := [m], printedError := none }

/-! ## Scorer / ranker (get_ranked_scores_for_user) -/

/-- np.trim_zeros(user_sequence, kind f) at predict_scores.py line 52:
strip the leading (left-padding) zeros. -/
def trimZerosFront : List Nat → List Nat
  | [] => []
  | x :: xs => if x = 0 then trimZerosFront xs else x :: xs

/-- desired_items comprehension at predict_scores.py lines 55-58: keys of
the achievement dict, in dict order, whose dense id is not among the
excluded items. -/
def desired_items (achievement_name_dict : List (String × Nat))
    (excluded : List Nat) : List String :=
  (achievement_name_dict.filter (fun p => decide (p.2 ∉ excluded))).map Prod.fst

/-- pd.Series(scores[1:], index=achievement_name_dict.keys()) at
predict_scores.py line 61: the model score at position 0 (the padding
slot) is dropped and the remaining scores are indexed by the dict keys in
dict order. -/
def scoresSeriesAll (scores : List Int)
    (achievement_name_dict : List (String × Nat)) : List (String × Int) :=
  (achievement_name_dict.map Prod.fst).zip (scores.drop 1)

/-- pandas .loc[labels] at predict_scores.py line 62: the rows of the
series carrying the requested labels, in label order. -/
def seriesLoc (s : List (String × Int)) (labels : List String) :
    List (String × Int) :=
  labels.filterMap (fun k => (List.lookup k s).map (fun v => (k, v)))

/-- pd.Series.sort_values(ascending=False) at predict_scores.py line 63:
pandas nargsort argsorts the values ascending (default kind quicksort,
numpy introsort) and then reverses the resulting permutation.  The
ascending argsort is embedded as a stable insertion sort.  This fixes an
order that the real sort does not fix everywhere: numpy introsort is
unstable once it partitions, which it does above its small-sort
threshold (pure insertion sort is run exactly for arrays of at most 16
elements, the regime where this embedding is exact); on tie-free values
every correct sort agrees at any length.  Consequences insensitive to
the tie order (membership, descending values) therefore hold of the
real sort unconditionally, while any statement about the order of tied
entries is asserted only under an explicit hypothesis bounding the
series length by 16. -/
def sortValuesDescending (s : List (String × Int)) : List (String × Int) :=
  (List.insertionSort (fun a b => a.2 ≤ b.2) s).reverse

/-- Candidate series of get_ranked_scores_for_user just before the sort
(predict_scores.py lines 51-62): trim the padding off the sequence,
compute the excluded items per the exclude_last_item policy
(user_items[:-1] under drop_last, user_items under drop_all), keep the
dict keys outside the exclusion, and select their scores. -/
def rankingCandidates (model_predict : List Nat → List Int)
    (user_sequence : List Nat)
    (achievement_name_dict : List (String × Nat))
    (exclude_last_item : Bool) : List (String × Int) :=
  let user_items := trimZerosFront user_sequence
  let excluded := if exclude_last_item then user_items.dropLast else user_items
  seriesLoc (scoresSeriesAll (model_predict user_sequence) achievement_name_dict)
    (desired_items achievement_name_dict excluded)

/-- Embeds get_ranked_scores_for_user of predict_scores.py lines 37-65
(the same body appears as get_ranked_scores_for_user_with_model in
model.py lines 51-80): score the padded sequence with the model, drop the
padding score, restrict to the dict keys the policy does not exclude, and
sort by score descending. -/
def get_ranked_scores_for_user (model_predict : List Nat → List Int)
    (user_sequence : List Nat)
    (achievement_name_dict : List (String × Nat))
    (exclude_last_item : Bool) : List (String × Int) :=
  sortValuesDescending
    (rankingCandidates model_predict user_sequence achievement_name_dict
      exclude_last_item)

instance : IsTotal (String × Int) (fun a b => a.2 ≤ b.2) :=
  ⟨fun a b => le_total a.2 b.2⟩

instance : IsTrans (String × Int) (fun a b => a.2 ≤ b.2) :=
  ⟨fun _ _ _ hab hbc => le_trans hab hbc⟩

/-! ## Prediction flow (predict_scores) -/

/-- Value a predict_scores call ends with, as seen by its caller. -/
inductive PredictScoresResult where
  /-- a ranked scores series was computed and returned -/
  | series (s : List (String × Int))
  /-- predict_scores.py line 160: the branch for a player already holding
  every achievement prints a message and falls off the function, which
  therefore returns the implicit None -/
  | implicitNone
  /-- predict_scores.py line 164: the branch for a player with no fetched
  achievements prints a message and returns the explicit empty
  pd.Series() -/
  | emptySeries
deriving DecidableEq

/-- Embeds predict_scores of predict_scores.py lines 118-164 after the
model load and the player fetch have supplied their data: invert the
reverse map attached to the model, set the capacity to the universe size,
and branch exactly as the source does - nonempty fetched achievements
with some achievement still missing lead to the ranked series (built with
the default exclude_last_item = False, drop_all); nonempty fetched
achievements covering the whole universe print and fall through; an empty
fetch returns the empty series.  The missing set is
set(achievement_name_dict.keys()) - set(fetched apinames), embedded as
the keys outside the fetched apinames. -/
def predict_scores (model_achievement_name_dict : List (Nat × String))
    (model_predict : List Nat → List Int)
    (player_achievements : List RawAchievement) : PredictScoresResult :=
  let achievement_name_dict :=
    predictAchievementNameDict model_achievement_name_dict
  let max_sequence_length := achievement_name_dict.length
  if player_achievements.isEmpty then .emptySeries
  else
    let missing_achievements := (achievement_name_dict.map Prod.fst).filter
      (fun k => decide (k ∉ player_achievements.map (fun a => a.apiname)))
    if missing_achievements.isEmpty then .implicitNone
    else
      let interactions := convert_achievements_to_interactions
        player_achievements achievement_name_dict
      let player_sequence := toSequenceSingleUser interactions
        max_sequence_length
      .series (get_ranked_scores_for_user model_predict player_sequence
        achievement_name_dict false)

/-! ## Theorems -/

theorem mem_pandasUniqueAux {α : Type} [DecidableEq α] (a : α) :
    ∀ (l seen : List α), a ∈ pandasUniqueAux seen l ↔ a ∈ l ∧ a ∉ seen := by
  intro l
  induction l with
  | nil => intro seen; simp [pandasUniqueAux]
  | cons x xs ih =>
      intro seen
      by_cases hx : x ∈ seen
      · rw [pandasUniqueAux, if_pos hx, ih]
        simp only [List.mem_cons]
        by_cases hax : a = x
        · subst hax; tauto
        · tauto
      · rw [pandasUniqueAux, if_neg hx]
        simp only [List.mem_cons, ih]
        by_cases hax : a = x
        · subst hax; tauto
        · tauto

theorem nodup_pandasUniqueAux {α : Type} [DecidableEq α] :
    ∀ (l seen : List α), (pandasUniqueAux seen l).Nodup := by
  intro l
  induction l with
  | nil => intro seen; simp [pandasUniqueAux]
  | cons x xs ih =>
      intro seen
      by_cases hx : x ∈ seen
      · simpa [pandasUniqueAux, if_pos hx] using ih seen
      · simp only [pandasUniqueAux, if_neg hx]
        refine List.Nodup.cons ?_ (ih (x :: seen))
        intro hmem
        exact ((mem_pandasUniqueAux x xs (x :: seen)).mp hmem).2 (List.mem_cons_self x seen)

theorem mem_pandasUnique {α : Type} [DecidableEq α] (a : α) (l : List α) :
    a ∈ pandasUnique l ↔ a ∈ l := by
  simp [pandasUnique, mem_pandasUniqueAux]

theorem nodup_pandasUnique {α : Type} [DecidableEq α] (l : List α) :
    (pandasUnique l).Nodup :=
  nodup_pandasUniqueAux l []

theorem length_pandasUnique {α : Type} [DecidableEq α] (l : List α) :
    (pandasUnique l).length = l.toFinset.card := by
  have htf : (pandasUnique l).toFinset = l.toFinset := by
    ext a; simp [List.mem_toFinset, mem_pandasUnique]
  calc (pandasUnique l).length
      = (pandasUnique l).toFinset.card :=
        (List.toFinset_card_of_nodup (nodup_pandasUnique l)).symm
    _ = l.toFinset.card := by rw [htf]

theorem pandasUniqueAux_congr {α : Type} [DecidableEq α] :
    ∀ (l seen seen' : List α), (∀ a, a ∈ seen ↔ a ∈ seen') →
      pandasUniqueAux seen l = pandasUniqueAux seen' l := by
  intro l
  induction l with
  | nil => intro seen seen' _; rfl
  | cons x xs ih =>
      intro seen seen' h
      by_cases hx : x ∈ seen
      · rw [pandasUniqueAux, pandasUniqueAux, if_pos hx, if_pos ((h x).mp hx)]
        exact ih seen seen' h
      · rw [pandasUniqueAux, pandasUniqueAux, if_neg hx,
          if_neg (fun hc => hx ((h x).mpr hc))]
        refine congrArg (x :: ·) (ih _ _ ?_)
        intro a; simp [List.mem_cons, h a]

theorem pandasUniqueAux_filter {α : Type} [DecidableEq α] :
    ∀ (l seen : List α) (x : α),
      pandasUniqueAux (x :: seen) l =
        pandasUniqueAux seen (l.filter (fun y => y ≠ x)) := by
  intro l
  induction l with
  | nil => intro seen x; rfl
  | cons y ys ih =>
      intro seen x
      by_cases hyx : y = x
      · subst hyx
        have : (y :: ys).filter (fun z => z ≠ y) = ys.filter (fun z => z ≠ y) := by
          simp [List.filter_cons]
        rw [this, pandasUniqueAux, if_pos (List.mem_cons_self y seen), ih]
      · have hfc : (y :: ys).filter (fun z => z ≠ x) =
            y :: ys.filter (fun z => z ≠ x) := by
          simp [List.filter_cons, hyx]
        by_cases hy : y ∈ seen
        · rw [pandasUniqueAux, if_pos (List.mem_cons_of_mem _ hy), hfc,
            pandasUniqueAux, if_pos hy, ih]
        · have hyn : y ∉ x :: seen := by
            simp [List.mem_cons, hyx, hy]
          rw [pandasUniqueAux, if_neg hyn, hfc, pandasUniqueAux, if_neg hy]
          refine congrArg (y :: ·) ?_
          rw [pandasUniqueAux_congr ys (y :: x :: seen) (x :: y :: seen)
            (by intro a; simp only [List.mem_cons]; tauto)]
          exact ih (y :: seen) x

/-- First-seen recursion equation for `pandasUnique`: the first element of
the input heads the output, and the rest is the deduplication of the
remaining input with that element removed. -/
theorem pandasUnique_cons {α : Type} [DecidableEq α] (x : α) (xs : List α) :
    pandasUnique (x :: xs) = x :: pandasUnique (xs.filter (fun y => y ≠ x)) := by
  show pandasUniqueAux [] (x :: xs) = _
  rw [pandasUniqueAux, if_neg (List.not_mem_nil x)]
  exact congrArg (x :: ·) (pandasUniqueAux_filter xs [] x)

theorem assignDenseIds_fst {α : Type} :
    ∀ (l : List α) (n : Nat), (assignDenseIds n l).map Prod.fst = l := by
  intro l
  induction l with
  | nil => intro n; rfl
  | cons x xs ih => intro n; simp [assignDenseIds, ih]

theorem assignDenseIds_snd {α : Type} :
    ∀ (l : List α) (n : Nat),
      (assignDenseIds n l).map Prod.snd = List.range' n l.length := by
  intro l
  induction l with
  | nil => intro n; rfl
  | cons x xs ih => intro n; simp [assignDenseIds, ih, List.range'_succ]

/-- C2: the identifier encoder assigns the dense ids 1..k with no gaps or
duplicates, where k is the number of distinct raw ids; ids follow
first-seen order of the raw ids (keys are the first-seen deduplication of
the input, pinned by the recursion equation), and the sentinel 0 is never
assigned. -/
theorem buildIdDict_dense {α : Type} [DecidableEq α] (l : List α) :
    (buildIdDict l).map Prod.fst = pandasUnique l ∧
    (buildIdDict l).map Prod.snd = List.range' 1 l.toFinset.card ∧
    (∀ p ∈ buildIdDict l, p.2 ≠ 0) ∧
    (∀ (x : α) (xs : List α),
      pandasUnique (x :: xs) = x :: pandasUnique (xs.filter (fun y => y ≠ x))) := by
  refine ⟨assignDenseIds_fst _ _, ?_, ?_, pandasUnique_cons⟩
  · rw [buildIdDict, assignDenseIds_snd, length_pandasUnique]
  · intro p hp
    have : p.2 ∈ (buildIdDict l).map Prod.snd := List.mem_map_of_mem Prod.snd hp
    rw [buildIdDict, assignDenseIds_snd] at this
    have := List.mem_range'_1.mp this
    omega

/-- C3: sequence construction drops, record by record and without
aborting the call, every event whose unlock timestamp is 0 and every
event whose identifier is absent from the relevant map (the
characterising equations process each record independently and both
filtering functions are total), on the prediction path
(convert_achievements_to_interactions) as well as on the training path
(the dropna and timestamp filter of train_model.py); and on the concrete
scenario [(a1, t=10), (a2, t=20), (a3, t=0)] with capacity 3 the builder
yields the sequence [a1_id, a2_id] left-padded with one 0. -/
theorem convert_achievements_drops_bad_records :
    (∀ (achs : List RawAchievement) (d : List (String × Nat)),
      convert_achievements_to_interactions achs d =
        achs.filterMap (fun a =>
          match List.lookup a.apiname d with
          | none => none
          | some i =>
              if a.unlocktime = 0 then none else some (i, a.unlocktime))) ∧
    (∀ rows : List InteractionRow,
      trainFilteredRows rows = rows.filterMap (fun r =>
        match List.lookup r.steamid (buildIdDict (rows.map (fun x => x.steamid))),
              List.lookup r.apiname (buildIdDict (rows.map (fun x => x.apiname))) with
        | some u, some i =>
            if r.unlocked = 0 then none else some (u, i, r.unlocked)
        | _, _ => none)) ∧
    toSequenceSingleUser
      (convert_achievements_to_interactions
        [⟨"a1", 10⟩, ⟨"a2", 20⟩, ⟨"a3", 0⟩]
        [("a1", 1), ("a2", 2), ("a3", 3)]) 3 = [0, 1, 2] := by
  refine ⟨?_, ?_, by decide⟩
  · intro achs d
    induction achs with
    | nil => rfl
    | cons a as ih =>
        simp only [convert_achievements_to_interactions] at ih ⊢
        cases h : List.lookup a.apiname d with
        | none => simpa [List.filterMap_cons, h] using ih
        | some i =>
            by_cases ht : a.unlocktime = 0
            · simpa [List.filterMap_cons, h, ht, List.filter_cons] using ih
            · simpa [List.filterMap_cons, h, ht, List.filter_cons] using ih
  · intro rows
    simp only [trainFilteredRows]
    generalize buildIdDict (rows.map (fun x => x.steamid)) = sd
    generalize buildIdDict (rows.map (fun x => x.apiname)) = ad
    induction rows with
    | nil => rfl
    | cons r rs ih =>
        cases hu : List.lookup r.steamid sd with
        | none => simpa [List.filterMap_cons, hu] using ih
        | some u =>
            cases hi : List.lookup r.apiname ad with
            | none => simpa [List.filterMap_cons, hu, hi] using ih
            | some i =>
                by_cases ht : r.unlocked = 0
                · simpa [List.filterMap_cons, hu, hi, ht, List.filter_cons] using ih
                · simpa [List.filterMap_cons, hu, hi, ht, List.filter_cons] using ih

theorem listLtb_irrefl : ∀ as, listLtb as as = false := by
  intro as
  induction as with
  | nil => rfl
  | cons a as ih => simp [listLtb, ih]

theorem listLtb_trans :
    ∀ as bs cs, listLtb as bs = true → listLtb bs cs = true →
      listLtb as cs = true := by
  intro as
  induction as with
  | nil =>
      intro bs cs h1 h2
      cases bs with
      | nil => simp [listLtb] at h1
      | cons b bs' =>
          cases cs with
          | nil => simp [listLtb] at h2
          | cons c cs' => simp [listLtb]
  | cons a as' ih =>
      intro bs cs h1 h2
      cases bs with
      | nil => simp [listLtb] at h1
      | cons b bs' =>
          cases cs with
          | nil => simp [listLtb] at h2
          | cons c cs' =>
              simp only [listLtb] at h1 h2 ⊢
              split_ifs at h1 h2 ⊢ <;>
                first
                  | rfl
                  | omega
                  | exact ih bs' cs' h1 h2

theorem listLtb_neg_trans :
    ∀ as bs cs, listLtb as cs = true →
      listLtb as bs = true ∨ listLtb bs cs = true := by
  intro as
  induction as with
  | nil =>
      intro bs cs h
      cases bs with
      | nil => right; exact h
      | cons b bs' => left; simp [listLtb]
  | cons a as' ih =>
      intro bs cs h
      cases cs with
      | nil => simp [listLtb] at h
      | cons c cs' =>
          cases bs with
          | nil => right; simp [listLtb]
          | cons b bs' =>
              simp only [listLtb] at h ⊢
              by_cases hab : a < b
              · left; simp [hab]
              · by_cases hbc : b < c
                · right; simp [hbc]
                · by_cases hac : a < c
                  · omega
                  · rw [if_neg hac] at h
                    by_cases hca : c < a
                    · rw [if_pos hca] at h; cases h
                    · rw [if_neg hca] at h
                      rw [if_neg hab, if_neg (show ¬ b < a by omega),
                        if_neg hbc, if_neg (show ¬ c < b by omega)]
                      exact ih bs' cs' h

theorem pyMaxBy_mem {α : Type} (lt : α → α → Bool) :
    ∀ (xs : List α) (best : α), pyMaxBy lt best xs ∈ best :: xs := by
  intro xs
  induction xs with
  | nil => intro best; simp [pyMaxBy]
  | cons x xs ih =>
      intro best
      by_cases hb : lt best x = true
      · rw [pyMaxBy, if_pos hb]
        rcases List.mem_cons.mp (ih x) with h | h
        · rw [h]; exact List.mem_cons_of_mem _ (List.mem_cons_self x xs)
        · exact List.mem_cons_of_mem _ (List.mem_cons_of_mem _ h)
      · rw [pyMaxBy, if_neg hb]
        rcases List.mem_cons.mp (ih best) with h | h
        · rw [h]; exact List.mem_cons_self best _
        · exact List.mem_cons_of_mem _ (List.mem_cons_of_mem _ h)

theorem pyMaxBy_not_lt {α : Type} (lt : α → α → Bool)
    (hirr : ∀ a, lt a a = false)
    (htrans : ∀ a b c, lt a b = true → lt b c = true → lt a c = true)
    (hneg : ∀ a b c, lt a c = true → lt a b = true ∨ lt b c = true) :
    ∀ (xs : List α) (best : α), ∀ y ∈ best :: xs,
      lt (pyMaxBy lt best xs) y = false := by
  intro xs
  induction xs with
  | nil =>
      intro best y hy
      rcases List.mem_cons.mp hy with rfl | h
      · exact hirr y
      · cases h
  | cons x xs ih =>
      intro best y hy
      by_cases hb : lt best x = true
      · rw [pyMaxBy, if_pos hb]
        rcases List.mem_cons.mp hy with heq | h
        · rw [heq]
          by_contra hcon
          have h1 : lt (pyMaxBy lt x xs) best = true := by
            cases hx : lt (pyMaxBy lt x xs) best
            · exact absurd hx hcon
            · rfl
          have h2 : lt (pyMaxBy lt x xs) x = true := htrans _ _ _ h1 hb
          have h3 := ih x x (List.mem_cons_self x xs)
          rw [h2] at h3; cases h3
        · exact ih x y h
      · rw [pyMaxBy, if_neg hb]
        rcases List.mem_cons.mp hy with heq | h
        · rw [heq]; exact ih best best (List.mem_cons_self best xs)
        · rcases List.mem_cons.mp h with heq | h'
          · rw [heq]
            by_contra hcon
            have h1 : lt (pyMaxBy lt best xs) x = true := by
              cases hx : lt (pyMaxBy lt best xs) x
              · exact absurd hx hcon
              · rfl
            rcases hneg _ best _ h1 with h2 | h2
            · have h3 := ih best best (List.mem_cons_self best xs)
              rw [h2] at h3; cases h3
            · exact hb h2
          · exact ih best y (List.mem_cons_of_mem _ h')

theorem load_latest_model_eq_of_filter_cons (appid : String)
    (dir : List ArtifactName) (m : ArtifactName) (ms : List ArtifactName)
    (hfil : dir.filter (fun f => decide (f.appid = appid)) = m :: ms) :
    load_latest_model appid dir =
      .ok (((m :: ms).find? (fun f => decide (f.created =
          (pyMaxBy (fun a b => Timestamp.ltb a.created b.created) m ms).created))).getD
        (pyMaxBy (fun a b => Timestamp.ltb a.created b.created) m ms)) := by
  unfold load_latest_model
  rw [hfil]

/-- C6: on every model directory holding at least one artifact for the
requested game, load_latest_model returns an artifact of that game whose
creation datetime, as parsed by strptime, is chronologically maximal
among the artifacts of the game (no other artifact parses to a strictly
later datetime); and on the scenario of two artifacts timestamped
2024-01-01_10-00-00 and 2024-01-02_09-00-00 it returns the second. -/
theorem load_latest_model_picks_latest :
    (∀ (appid : String) (model_dir : List ArtifactName),
      model_dir.filter (fun f => decide (f.appid = appid)) ≠ [] →
      ∃ f, load_latest_model appid model_dir = .ok f ∧
        f ∈ model_dir.filter (fun g => decide (g.appid = appid)) ∧
        ∀ g ∈ model_dir.filter (fun g => decide (g.appid = appid)),
          Timestamp.ltb f.created g.created = false) ∧
    load_latest_model "440"
      [⟨"440", ⟨2024, 1, 1, 10, 0, 0⟩⟩, ⟨"440", ⟨2024, 1, 2, 9, 0, 0⟩⟩] =
      .ok ⟨"440", ⟨2024, 1, 2, 9, 0, 0⟩⟩ := by
  constructor
  · intro appid model_dir hne
    have hirr : ∀ a : ArtifactName, Timestamp.ltb a.created a.created = false :=
      fun a => listLtb_irrefl a.created.fields
    have htrans : ∀ a b c : ArtifactName,
        Timestamp.ltb a.created b.created = true →
        Timestamp.ltb b.created c.created = true →
        Timestamp.ltb a.created c.created = true :=
      fun _ _ _ => listLtb_trans _ _ _
    have hneg : ∀ a b c : ArtifactName,
        Timestamp.ltb a.created c.created = true →
        Timestamp.ltb a.created b.created = true ∨
        Timestamp.ltb b.created c.created = true :=
      fun _ _ _ => listLtb_neg_trans _ _ _
    cases hfil : model_dir.filter (fun f => decide (f.appid = appid)) with
    | nil => exact absurd hfil hne
    | cons m ms =>
        have hload := load_latest_model_eq_of_filter_cons appid model_dir m ms hfil
        cases hfind : (m :: ms).find? (fun f => decide (f.created =
            (pyMaxBy (fun a b => Timestamp.ltb a.created b.created) m ms).created)) with
        | none =>
            refine ⟨pyMaxBy (fun a b => Timestamp.ltb a.created b.created) m ms,
              ?_, ?_, ?_⟩
            · rw [hload, hfind]; rfl
            · exact pyMaxBy_mem _ ms m
            · intro g hg
              exact pyMaxBy_not_lt (fun a b => Timestamp.ltb a.created b.created)
                hirr htrans hneg ms m g hg
        | some f =>
            have hf_mem : f ∈ m :: ms := List.mem_of_find?_eq_some hfind
            have hf_created : f.created =
                (pyMaxBy (fun a b => Timestamp.ltb a.created b.created) m ms).created := by
              have hp := List.find?_some hfind
              exact of_decide_eq_true hp
            refine ⟨f, ?_, ?_, ?_⟩
            · rw [hload, hfind]; rfl
            · exact hf_mem
            · intro g hg
              have hmax := pyMaxBy_not_lt (fun a b => Timestamp.ltb a.created b.created)
                hirr htrans hneg ms m g hg
              rw [show Timestamp.ltb f.created g.created =
                  Timestamp.ltb (pyMaxBy (fun a b => Timestamp.ltb a.created b.created)
                    m ms).created g.created from by rw [hf_created]]
              exact hmax
  · rfl

theorem load_latest_model_picks_latest_witness :
    (([⟨"440", ⟨2024, 1, 1, 10, 0, 0⟩⟩, ⟨"440", ⟨2024, 1, 2, 9, 0, 0⟩⟩] :
        List ArtifactName).filter (fun f => decide (f.appid = "440")) ≠ []) ∧
    (∃ f, load_latest_model "440"
        [⟨"440", ⟨2024, 1, 1, 10, 0, 0⟩⟩, ⟨"440", ⟨2024, 1, 2, 9, 0, 0⟩⟩] = .ok f ∧
      f ∈ ([⟨"440", ⟨2024, 1, 1, 10, 0, 0⟩⟩, ⟨"440", ⟨2024, 1, 2, 9, 0, 0⟩⟩] :
          List ArtifactName).filter (fun g => decide (g.appid = "440")) ∧
      ∀ g ∈ ([⟨"440", ⟨2024, 1, 1, 10, 0, 0⟩⟩, ⟨"440", ⟨2024, 1, 2, 9, 0, 0⟩⟩] :
          List ArtifactName).filter (fun g => decide (g.appid = "440")),
        Timestamp.ltb f.created g.created = false) :=
  ⟨by decide, load_latest_model_picks_latest.1 "440" _ (by decide)⟩

/-- C7: when the model directory holds no artifact for the requested
game, load_latest_model fails with the ModelNotFound error (the
FileNotFoundError of predict_scores.py line 24, telling the caller to
train first); the call produces no model value, in particular it does
not fall back to training one. -/
theorem load_latest_model_fails_when_no_artifact (appid : String)
    (model_dir : List ArtifactName)
    (h : model_dir.filter (fun f => decide (f.appid = appid)) = []) :
    load_latest_model appid model_dir = .error .modelNotFound := by
  unfold load_latest_model
  rw [h]

theorem load_latest_model_fails_when_no_artifact_witness :
    (([⟨"570", ⟨2024, 1, 1, 10, 0, 0⟩⟩] : List ArtifactName).filter
        (fun f => decide (f.appid = "440")) = []) ∧
    load_latest_model "440" [⟨"570", ⟨2024, 1, 1, 10, 0, 0⟩⟩] =
      .error .modelNotFound :=
  ⟨by decide, load_latest_model_fails_when_no_artifact "440" _ (by decide)⟩

/-- C4 counterexample: a training call on a catalog with exactly one
achievement returns normally to the caller (Except.ok, the raised
ValueError having been caught and printed by the blanket handler of
train_model.py line 87), so no InsufficientTrainingData error is
surfaced; no artifact is written. -/
theorem fetch_single_achievement_not_surfaced :
    fetch_data_and_train_model "440"
      [{ apiname := "a1", displayName := "A1", description := "", hidden := false }]
      [{ steamid := "p1", apiname := "a1", unlocked := 5 }]
      ⟨2024, 1, 1, 0, 0, 0⟩ =
      .ok { saved := [], printedError := some .singleAchievement } := by
  rfl

/-- C4 as amended: a training call with fewer than 2 catalog achievements
or with an empty filtered interaction table raises a ValueError inside
the pipeline, which the blanket except handler of
fetch_data_and_train_model catches and prints; the caller receives a
normal return carrying no error, and no partial model artifact is
written. -/
theorem fetch_insufficient_data_caught (appid : String)
    (descriptions : List CatalogEntry) (rows : List InteractionRow)
    (now : Timestamp)
    (h : descriptions.length < 2 ∨ trainFilteredRows rows = []) :
    ∃ e, fetch_data_and_train_model appid descriptions rows now =
      .ok { saved := [], printedError := some e } := by
  unfold fetch_data_and_train_model trainPipelineBody
  by_cases h0 : descriptions.isEmpty
  · exact ⟨.noAchievements, by rw [if_pos h0]⟩
  · rw [if_neg h0]
    by_cases h1 : descriptions.length = 1
    · exact ⟨.singleAchievement, by rw [if_pos h1]⟩
    · rw [if_neg h1]
      have h2 : trainFilteredRows rows = [] := by
        rcases h with hlt | hempty
        · exfalso
          have : descriptions ≠ [] := fun hc => h0 (by rw [hc]; rfl)
          have : descriptions.length ≠ 0 := fun hc => this (List.eq_nil_of_length_eq_zero hc)
          omega
        · exact hempty
      have h2' : (trainFilteredRows rows).isEmpty = true := by
        rw [h2]; rfl
      exact ⟨.emptyTrainingData, by rw [if_pos h2']⟩

theorem fetch_insufficient_data_caught_witness :
    (([{ apiname := "a1", displayName := "A1", description := "",
          hidden := false }] : List CatalogEntry).length < 2 ∨
      trainFilteredRows [{ steamid := "p1", apiname := "a1", unlocked := 5 }] = []) ∧
    ∃ e, fetch_data_and_train_model "440"
        [{ apiname := "a1", displayName := "A1", description := "", hidden := false }]
        [{ steamid := "p1", apiname := "a1", unlocked := 5 }]
        ⟨2024, 1, 1, 0, 0, 0⟩ =
      .ok { saved := [], printedError := some e } :=
  ⟨Or.inl (by decide),
    fetch_insufficient_data_caught "440" _ _ _ (Or.inl (by decide))⟩

theorem assignDenseIds_length {α : Type} :
    ∀ (l : List α) (n : Nat), (assignDenseIds n l).length = l.length := by
  intro l
  induction l with
  | nil => intro n; rfl
  | cons x xs ih => intro n; simp [assignDenseIds, ih]

/-- C9: the padded sequence capacity used at training time equals the
number of distinct achievements of the game (the achievement universe
size), and the capacity recomputed at scoring time from the reverse map
attached to the model trained on the same rows equals the training-time
capacity. -/
theorem capacity_eq_achievement_universe (rows : List InteractionRow) :
    trainSequenceCapacity rows =
      ((rows.map (fun r => r.apiname)).toFinset).card ∧
    predictMaxSequenceLength (modelReverseDict rows) =
      trainSequenceCapacity rows := by
  constructor
  · rw [trainSequenceCapacity, buildIdDict, assignDenseIds_length,
      length_pandasUnique]
  · rw [predictMaxSequenceLength, predictAchievementNameDict, modelReverseDict,
      List.length_map, List.length_map, trainSequenceCapacity]

theorem lookup_mem_of_nodup {β : Type} :
    ∀ (l : List (String × β)), (l.map Prod.fst).Nodup →
      ∀ q ∈ l, List.lookup q.1 l = some q.2 := by
  intro l
  induction l with
  | nil => intro _ q hq; cases hq
  | cons p t ih =>
      obtain ⟨k, b⟩ := p
      intro hnd q hq
      simp only [List.map_cons, List.nodup_cons] at hnd
      rcases List.mem_cons.mp hq with heq | hmem
      · subst heq
        simp [List.lookup]
      · have hne : q.1 ≠ k := by
          intro hc
          exact hnd.1 (hc ▸ List.mem_map_of_mem Prod.fst hmem)
        have hbeq : (q.1 == k) = false := beq_eq_false_iff_ne.mpr hne
        rw [List.lookup, hbeq]
        exact ih hnd.2 q hmem

theorem mem_rankingCandidates_key (model_predict : List Nat → List Int)
    (user_sequence : List Nat) (d : List (String × Nat)) (ex : Bool)
    (p : String × Int)
    (hp : p ∈ rankingCandidates model_predict user_sequence d ex) :
    ∃ q ∈ d, q.1 = p.1 ∧
      q.2 ∉ (if ex then (trimZerosFront user_sequence).dropLast
             else trimZerosFront user_sequence) := by
  simp only [rankingCandidates, seriesLoc, desired_items] at hp
  rcases List.mem_filterMap.mp hp with ⟨k, hk, hkp⟩
  rcases Option.map_eq_some'.mp hkp with ⟨v, _, hvp⟩
  rcases List.mem_map.mp hk with ⟨q, hq, hqk⟩
  have hqd := (List.mem_filter.mp hq).1
  have hqex' := (List.mem_filter.mp hq).2
  simp only [decide_eq_true_eq] at hqex'
  exact ⟨q, hqd, by rw [hqk, ← hvp], hqex'⟩

/-- C1: the ranked output of the scorer never carries an achievement code
whose dense id lies in the exclusion set of the policy (under
exclude_last_item = true, drop_last, every trimmed history item except
the most recent is excluded; under exclude_last_item = false, drop_all,
every trimmed history item is excluded), and the sequence of output
scores is non-increasing. -/
theorem get_ranked_scores_excludes_and_sorted
    (model_predict : List Nat → List Int) (user_sequence : List Nat)
    (achievement_name_dict : List (String × Nat)) (exclude_last_item : Bool)
    (hk : (achievement_name_dict.map Prod.fst).Nodup) :
    (∀ p ∈ get_ranked_scores_for_user model_predict user_sequence
        achievement_name_dict exclude_last_item,
      ∀ i, List.lookup p.1 achievement_name_dict = some i →
        i ∉ (if exclude_last_item then (trimZerosFront user_sequence).dropLast
             else trimZerosFront user_sequence)) ∧
    (get_ranked_scores_for_user model_predict user_sequence
        achievement_name_dict exclude_last_item).Pairwise
      (fun p q => q.2 ≤ p.2) := by
  constructor
  · intro p hp i hi
    have hp' : p ∈ rankingCandidates model_predict user_sequence
        achievement_name_dict exclude_last_item := by
      rw [get_ranked_scores_for_user, sortValuesDescending] at hp
      exact (List.mem_insertionSort _).mp (List.mem_reverse.mp hp)
    rcases mem_rankingCandidates_key _ _ _ _ p hp' with ⟨q, hqd, hqk, hqex⟩
    have : List.lookup p.1 achievement_name_dict = some q.2 := by
      rw [← hqk]; exact lookup_mem_of_nodup _ hk q hqd
    rw [hi] at this
    cases this
    exact hqex
  · rw [get_ranked_scores_for_user, sortValuesDescending]
    exact List.pairwise_reverse.mpr
      (List.sorted_insertionSort (fun (a b : String × Int) => a.2 ≤ b.2)
        (rankingCandidates model_predict user_sequence achievement_name_dict
          exclude_last_item))

theorem get_ranked_scores_excludes_and_sorted_witness :
    ((([("a1", 1), ("a2", 2), ("a3", 3)] : List (String × Nat)).map
      Prod.fst).Nodup) ∧
    ((∀ p ∈ get_ranked_scores_for_user (fun _ => [0, 9, 4, 7]) [0, 1]
        [("a1", 1), ("a2", 2), ("a3", 3)] false,
      ∀ i, List.lookup p.1
          ([("a1", 1), ("a2", 2), ("a3", 3)] : List (String × Nat)) = some i →
        i ∉ (if false then (trimZerosFront [0, 1]).dropLast
             else trimZerosFront [0, 1])) ∧
    (get_ranked_scores_for_user (fun _ => [0, 9, 4, 7]) [0, 1]
        [("a1", 1), ("a2", 2), ("a3", 3)] false).Pairwise
      (fun p q => q.2 ≤ p.2)) :=
  ⟨by decide, get_ranked_scores_excludes_and_sorted _ _ _ _ (by decide)⟩

theorem scoresSeriesAll_assign (d : List (String × Nat)) :
    ∀ (s : Nat) (scores : List Int),
      d.map Prod.snd = List.range' s d.length →
      s + d.length ≤ scores.length →
      (d.map Prod.fst).zip (scores.drop s) =
        d.map (fun p => (p.1, scores.getD p.2 0)) := by
  induction d with
  | nil => intro s scores _ _; rfl
  | cons p t ih =>
      intro s scores hd hlen
      simp only [List.map_cons, List.length_cons] at hd
      rw [List.range'_succ] at hd
      have hps : p.2 = s := (List.cons_eq_cons.mp hd).1
      have htl : t.map Prod.snd = List.range' (s + 1) t.length :=
        (List.cons_eq_cons.mp hd).2
      have hslt : s < scores.length := by
        simp only [List.length_cons] at hlen; omega
      rw [List.map_cons, List.map_cons,
        List.drop_eq_getElem_cons hslt, List.zip_cons_cons,
        ih (s + 1) scores htl (by simp only [List.length_cons] at hlen; omega)]
      congr 1
      rw [hps, List.getD_eq_getElem scores 0 hslt]

/-- C8: the series built at scoring time drops the model score at
position 0 (the padding slot) and assigns to each achievement whose dense
id is i the score at position i of the model output, so exactly the k
real achievements receive scores. -/
theorem scoresSeries_assigns_by_dense_id (scores : List Int)
    (d : List (String × Nat))
    (hd : d.map Prod.snd = List.range' 1 d.length)
    (hl : scores.length = d.length + 1) :
    scoresSeriesAll scores d = d.map (fun p => (p.1, scores.getD p.2 0)) ∧
    (scoresSeriesAll scores d).length = d.length := by
  have h := scoresSeriesAll_assign d 1 scores hd (by omega)
  refine ⟨h, ?_⟩
  show ((d.map Prod.fst).zip (scores.drop 1)).length = d.length
  rw [h, List.length_map]

theorem scoresSeries_assigns_by_dense_id_witness :
    (([("a1", 1), ("a2", 2)] : List (String × Nat)).map Prod.snd =
      List.range' 1 ([("a1", 1), ("a2", 2)] : List (String × Nat)).length) ∧
    (([10, 20, 30] : List Int).length =
      ([("a1", 1), ("a2", 2)] : List (String × Nat)).length + 1) ∧
    (scoresSeriesAll [10, 20, 30] [("a1", 1), ("a2", 2)] =
      ([("a1", 1), ("a2", 2)] : List (String × Nat)).map
        (fun p => (p.1, ([10, 20, 30] : List Int).getD p.2 0)) ∧
    (scoresSeriesAll [10, 20, 30] [("a1", 1), ("a2", 2)]).length =
      ([("a1", 1), ("a2", 2)] : List (String × Nat)).length) :=
  ⟨by decide, by decide,
    scoresSeries_assigns_by_dense_id [10, 20, 30] [("a1", 1), ("a2", 2)]
      (by decide) (by decide)⟩

/-- C10 counterexample: two candidates a1 (dense id 1) and a2 (dense id
2) tied at score 5 come out of the ranking with a2 first: the tie is
broken by descending dense id, not ascending. -/
theorem ranked_tie_not_ascending_dense_id :
    get_ranked_scores_for_user (fun _ => [0, 5, 5]) [0]
      [("a1", 1), ("a2", 2)] false = [("a2", 5), ("a1", 5)] ∧
    (([("a2", 5), ("a1", 5)] : List (String × Int)) ≠
      [("a1", 5), ("a2", 5)]) :=
  ⟨by decide, by decide⟩

theorem seriesLoc_keys_sublist (s : List (String × Int)) :
    ∀ labels : List String,
      ((seriesLoc s labels).map Prod.fst).Sublist labels := by
  intro labels
  induction labels with
  | nil => exact List.Sublist.refl []
  | cons k t ih =>
      cases h : List.lookup k s with
      | none =>
          have hstep : seriesLoc s (k :: t) = seriesLoc s t := by
            rw [seriesLoc, seriesLoc, List.filterMap_cons, h]
            rfl
          rw [hstep]
          exact List.Sublist.cons k ih
      | some v =>
          have hstep : seriesLoc s (k :: t) = (k, v) :: seriesLoc s t := by
            rw [seriesLoc, seriesLoc, List.filterMap_cons, h]
            rfl
          rw [hstep, List.map_cons]
          exact List.Sublist.cons₂ k ih

theorem desired_items_sublist (d : List (String × Nat)) (excluded : List Nat) :
    (desired_items d excluded).Sublist (d.map Prod.fst) :=
  List.Sublist.map Prod.fst (List.filter_sublist d)

/-- C10 as amended: the candidate series follows dict order (its keys
form a sublist of the dict keys, which for the model dict are in
ascending dense id order), and when two candidates a and b appear in
that order with equal scores, and the candidate series is small enough
that the pandas sort runs numpy introsort on its stable pure
insertion-sort path (at most 16 candidates, the regime where
sortValuesDescending is an exact model), the ranked output lists b
before a: the descending sort reverses a stable ascending sort, so such
ties come out in descending dense id order.  For larger candidate
series the tie order is whatever the unstable quicksort partitioning
yields and is not asserted here. -/
theorem ranked_ties_reverse_candidate_order
    (model_predict : List Nat → List Int) (user_sequence : List Nat)
    (achievement_name_dict : List (String × Nat)) (exclude_last_item : Bool)
    (a b : String × Int)
    (_hsmall : (rankingCandidates model_predict user_sequence
      achievement_name_dict exclude_last_item).length ≤ 16)
    (hsub : [a, b].Sublist (rankingCandidates model_predict user_sequence
      achievement_name_dict exclude_last_item))
    (heq : a.2 = b.2) :
    [b, a].Sublist (get_ranked_scores_for_user model_predict user_sequence
      achievement_name_dict exclude_last_item) ∧
    ((rankingCandidates model_predict user_sequence achievement_name_dict
      exclude_last_item).map Prod.fst).Sublist
        (achievement_name_dict.map Prod.fst) := by
  constructor
  · rw [get_ranked_scores_for_user, sortValuesDescending]
    have hstep : [a, b].Sublist (List.insertionSort
        (fun (x y : String × Int) => x.2 ≤ y.2)
        (rankingCandidates model_predict user_sequence achievement_name_dict
          exclude_last_item)) :=
      List.pair_sublist_insertionSort (le_of_eq heq) hsub
    simpa using hstep.reverse
  · show ((seriesLoc (scoresSeriesAll (model_predict user_sequence)
        achievement_name_dict)
        (desired_items achievement_name_dict
          (if exclude_last_item then (trimZerosFront user_sequence).dropLast
           else trimZerosFront user_sequence))).map Prod.fst).Sublist
      (achievement_name_dict.map Prod.fst)
    exact (seriesLoc_keys_sublist _ _).trans (desired_items_sublist _ _)

theorem ranked_ties_reverse_candidate_order_witness :
    ((rankingCandidates (fun _ => [0, 5, 5]) [0]
        [("a1", 1), ("a2", 2)] false).length ≤ 16) ∧
    ([(("a1" : String), (5 : Int)), ("a2", 5)].Sublist
      (rankingCandidates (fun _ => [0, 5, 5]) [0]
        [("a1", 1), ("a2", 2)] false)) ∧
    ((("a1" : String), (5 : Int)).2 = (("a2" : String), (5 : Int)).2) ∧
    ([(("a2" : String), (5 : Int)), ("a1", 5)].Sublist
      (get_ranked_scores_for_user (fun _ => [0, 5, 5]) [0]
        [("a1", 1), ("a2", 2)] false) ∧
     ((rankingCandidates (fun _ => [0, 5, 5]) [0]
        [("a1", 1), ("a2", 2)] false).map Prod.fst).Sublist
       (([("a1", 1), ("a2", 2)] : List (String × Nat)).map Prod.fst)) :=
  ⟨by decide, by decide, rfl,
    ranked_ties_reverse_candidate_order _ _ _ _ ("a1", 5) ("a2", 5)
      (by decide) (by decide) rfl⟩

/-- C5 evaluation at the failing input: a player already holding every
achievement of the model universe makes predict_scores print a message
and fall off the end, so the caller receives the implicit None, not an
explicit empty series; the explicit empty pd.Series() is produced only by
the branch for a player with no achievements at all. -/
theorem predict_scores_all_achievements_returns_none :
    predict_scores [(1, "a1"), (2, "a2")] (fun _ => [0, 7, 3])
      [⟨"a1", 10⟩, ⟨"a2", 20⟩] = .implicitNone ∧
    predict_scores [(1, "a1"), (2, "a2")] (fun _ => [0, 7, 3]) [] =
      .emptySeries :=
  ⟨by decide, by decide⟩
